import Mathlib

/-!
Verification of the execution-safety layer of the GCOPTER-based planner:
the progress/safety checker `pa_checker::Pa_checker` of
`src/gcopter/include/gcopter/pa_checker.hpp` and the replanning state
machine of `src/gcopter/src/global_planning.cpp`.

The C++ code computes over `double` with `cos` and vector norms.  The
embedding is generic over a linear ordered field `K` together with a
record `AOps K` supplying the two analytic primitives the code uses
(`cos` and `sqrt`, the latter with its two sign facts).  Instantiating
`K := ℝ` with `Real.cos` / `Real.sqrt` gives the idealised real-number
model of the code; instantiating `K := ℚ` with executable stand-ins
lets concrete runs be evaluated inside proofs.
-/

set_option maxHeartbeats 1000000
set_option linter.unusedSectionVars false

variable {K : Type} [LinearOrderedField K]

/-- The analytic primitives used by `pa_checker.hpp`: `cos` (line 41) and
the square root underlying Eigen's `norm()`/`normalized()` (lines 39, 48),
together with the two sign facts of the square root that the safety
arguments use. -/
structure AOps (K : Type) [LinearOrderedField K] where
  cos : K → K
  sqrt : K → K
  sqrt_zero : sqrt 0 = 0
  sqrt_nonneg : ∀ x : K, 0 ≤ sqrt x

/-- `Eigen::Vector3d`. -/
structure Vec3 (K : Type) where
  x : K
  y : K
  z : K
deriving DecidableEq

/-- `Eigen::Vector4d` holding a quaternion in the order
`(quat(0), quat(1), quat(2), quat(3)) = (w, x, y, z)` as used at
`pa_checker.hpp` line 32. -/
structure Vec4 (K : Type) where
  w : K
  x : K
  y : K
  z : K
deriving DecidableEq

def Vec3.add (a b : Vec3 K) : Vec3 K := ⟨a.x + b.x, a.y + b.y, a.z + b.z⟩

def Vec3.sub (a b : Vec3 K) : Vec3 K := ⟨a.x - b.x, a.y - b.y, a.z - b.z⟩

def Vec3.smul (a : K) (v : Vec3 K) : Vec3 K := ⟨a * v.x, a * v.y, a * v.z⟩

def Vec3.dot (a b : Vec3 K) : K := a.x * b.x + a.y * b.y + a.z * b.z

def Vec3.cross (a b : Vec3 K) : Vec3 K :=
  ⟨a.y * b.z - a.z * b.y, a.z * b.x - a.x * b.z, a.x * b.y - a.y * b.x⟩

/-- Eigen's `v.norm()`. -/
def Vec3.norm (ops : AOps K) (v : Vec3 K) : K := ops.sqrt (v.dot v)

/-- Eigen's `v.normalized()`, modelled with the field convention
`1 / 0 = 0` for the zero vector. -/
def Vec3.normalized (ops : AOps K) (v : Vec3 K) : Vec3 K :=
  Vec3.smul (1 / v.norm ops) v

/-- `Eigen::Vector3d::UnitX()`. -/
def unitX : Vec3 K := ⟨1, 0, 0⟩

def quatVec (q : Vec4 K) : Vec3 K := ⟨q.x, q.y, q.z⟩

/-- Eigen's quaternion-vector product `q * v`
(`uv = 2 * (q.vec() × v); q * v = v + q.w() * uv + q.vec() × uv`),
used at `pa_checker.hpp` line 33. -/
def quatRotate (q : Vec4 K) (v : Vec3 K) : Vec3 K :=
  let uv := Vec3.smul 2 ((quatVec q).cross v)
  Vec3.add (Vec3.add v (Vec3.smul q.w uv)) ((quatVec q).cross uv)

/-- The sensor boresight of `pa_checker.hpp` lines 32-34:
`h = (q * UnitX()).normalized()`. -/
def boresight (ops : AOps K) (quat : Vec4 K) : Vec3 K :=
  Vec3.normalized ops (quatRotate quat unitX)

/-- The slice of `Trajectory<5>` that `pa_checker.hpp` and
`global_planning.cpp` consume: `getPieceNum()`, `getTotalDuration()`
and `getPos(t)`. -/
structure Traj (K : Type) where
  pieceNum : ℕ
  dur : K
  posAt : K → Vec3 K

/-- A cleared trajectory (`traj.clear()` at `global_planning.cpp`
line 215): no pieces, zero duration. -/
def Traj.empty : Traj K := ⟨0, 0, fun _ => ⟨0, 0, 0⟩⟩

/-- The state of `pa_checker::Pa_checker` (`pa_checker.hpp` lines 10-14),
fields in declaration order. -/
structure Pa_checker (K : Type) where
  progress_t : K
  a_max : K
  max_dist : K
  safe : Bool
  angle : K
deriving DecidableEq

/-- The constructor `Pa_checker(progress, alpha, amax, maxdist, safeFlag)`
(`pa_checker.hpp` lines 18-26). -/
def Pa_checker.init (progress alpha amax maxdist : K) (safeFlag : Bool) :
    Pa_checker K :=
  ⟨progress, amax, maxdist, safeFlag, alpha⟩

def Pa_checker.withProgress (c : Pa_checker K) (t : K) : Pa_checker K :=
  ⟨t, c.a_max, c.max_dist, c.safe, c.angle⟩

def Pa_checker.withSafe (c : Pa_checker K) (b : Bool) : Pa_checker K :=
  ⟨c.progress_t, c.a_max, c.max_dist, b, c.angle⟩

/-- `pa_checker.hpp` line 30: `if (progress_t <= delta) progress_t = delta;`. -/
def Pa_checker.clamp (c : Pa_checker K) (delta : K) : Pa_checker K :=
  if c.progress_t ≤ delta then c.withProgress delta else c

/-- The loop step of the scan (`pa_checker.hpp` line 36): the loop starts
at `progress_t + 0.01` and advances by `0.05` per iteration. -/
def stepSize : K := 5 / 100

/-- Iteration count of `for (double t = start; t <= dur; t += 0.05)` in
exact arithmetic. -/
def numSteps [FloorRing K] (start dur : K) : ℕ :=
  if start ≤ dur then Nat.floor ((dur - start) / (stepSize : K)) + 1 else 0

/-- The sample times the loop at `pa_checker.hpp` line 36 visits:
`start, start + 0.05, start + 0.10, …` while `≤ dur`. -/
def sampleTimes [FloorRing K] (start dur : K) : List K :=
  (List.range (numSteps start dur)).map (fun k : ℕ => start + stepSize * (k : K))

/-- The joint cone/range branch condition at `pa_checker.hpp` line 41:
`h.dot(unit_check) > cos(angle/2) && h.dot(check_pos) <= max_dist`. -/
def sampleOK (ops : AOps K) (c : Pa_checker K) (traj : Traj K)
    (pos h : Vec3 K) (t : K) : Prop :=
  ops.cos (c.angle / 2) < Vec3.dot h (Vec3.normalized ops (Vec3.sub (traj.posAt t) pos)) ∧
  Vec3.dot h (Vec3.sub (traj.posAt t) pos) ≤ c.max_dist

instance (ops : AOps K) (c : Pa_checker K) (traj : Traj K)
    (pos h : Vec3 K) (t : K) : Decidable (sampleOK ops c traj pos h t) := by
  unfold sampleOK
  infer_instance

/-- The stopping-distance decision at `pa_checker.hpp` lines 48-49:
`s = (traj.getPos(progress_t) - pos).norm();`
`safe = (speed*speed - 2*a_max*s) > 0 ? false : true;`. -/
def stopDecision (ops : AOps K) (traj : Traj K) (pos : Vec3 K)
    (speed a_max progress : K) : Bool :=
  if speed * speed - 2 * a_max * Vec3.norm ops (Vec3.sub (traj.posAt progress) pos) > 0
  then false else true

/-- The body of the scan loop at `pa_checker.hpp` lines 36-56: on a
passing sample advance `progress_t` and continue; on the first failing
sample store the stopping-distance decision into `safe` and break. -/
def Pa_checker.checkLoop (ops : AOps K) (traj : Traj K) (pos h : Vec3 K)
    (speed : K) : Pa_checker K → List K → Pa_checker K
  | c, [] => c
  | c, t :: ts =>
    if sampleOK ops c traj pos h t then
      Pa_checker.checkLoop ops traj pos h speed (c.withProgress t) ts
    else
      c.withSafe (stopDecision ops traj pos speed c.a_max c.progress_t)

/-- `Pa_checker::check` (`pa_checker.hpp` lines 28-60): clamp
`progress_t` up to `delta`, compute the boresight, then scan the sample
times from `progress_t + 0.01` up to the total duration. -/
def Pa_checker.check [FloorRing K] (c : Pa_checker K) (ops : AOps K)
    (traj : Traj K) (quat : Vec4 K) (pos : Vec3 K) (speed delta : K) :
    Pa_checker K :=
  Pa_checker.checkLoop ops traj pos (boresight ops quat) speed (c.clamp delta)
    (sampleTimes ((c.clamp delta).progress_t + 1 / 100) traj.dur)

/-- `Pa_checker::getProgress` (`pa_checker.hpp` lines 62-65). -/
def Pa_checker.getProgress (c : Pa_checker K) : K := c.progress_t

/-- `Pa_checker::getSafeFlag` (`pa_checker.hpp` lines 67-70). -/
def Pa_checker.getSafeFlag (c : Pa_checker K) : Bool := c.safe

/-- `Pa_checker::clear` (`pa_checker.hpp` lines 72-76). -/
def Pa_checker.clear (c : Pa_checker K) : Pa_checker K :=
  ⟨0, c.a_max, c.max_dist, false, c.angle⟩

/-- The slice of `Config` that `targetCallBack` reads
(`global_planning.cpp` lines 252-254): `dilateRadius`, `mapBound[4]`,
`mapBound[5]`. -/
structure Config (K : Type) where
  dilateRadius : K
  mapBound4 : K
  mapBound5 : K

/-- The fields of a `geometry_msgs::PoseStamped` goal message that
`targetCallBack` reads: `pose.position.x`, `pose.position.y`,
`pose.orientation.z`. -/
structure TargetMsg (K : Type) where
  posX : K
  posY : K
  orientZ : K

/-- The external collaborators of one run of `GlobalPlanner::plan`
(`global_planning.cpp` lines 152-242), modelled as an oracle: the route
produced by `sfc_gen::planPath`, whether `gcopter.setup(...)` succeeds,
whether `gcopter.optimize(traj, ...)` returns an infinite cost, and the
trajectory the optimizer writes into `traj` by reference. -/
structure PlanOracle (K : Type) where
  route : List (Vec3 K)
  setupOk : Bool
  optCostInf : Bool
  optTraj : Traj K

/-- The mutable state of `GlobalPlanner` (`global_planning.cpp`
lines 82-99) relevant to planning: the config slice, the map-ingest
flag, the occupancy query `voxelMap.query` (true means occupied, i.e.
the C++ query returned nonzero), the goal buffer `startGoal`, the
installed trajectory `traj`, the monitor `paChecker`, and `trajStamp`. -/
structure GlobalPlanner (K : Type) where
  config : Config K
  mapInitialized : Bool
  voxelQuery : Vec3 K → Bool
  startGoal : List (Vec3 K)
  traj : Traj K
  paChecker : Pa_checker K
  trajStamp : K

def GlobalPlanner.withGoals (g : GlobalPlanner K) (sg : List (Vec3 K)) :
    GlobalPlanner K :=
  ⟨g.config, g.mapInitialized, g.voxelQuery, sg, g.traj, g.paChecker, g.trajStamp⟩

/-- `global_planning.cpp` lines 215-216: `traj.clear(); paChecker.clear();`
executed before the setup/optimize attempt. -/
def GlobalPlanner.clearForPlan (g : GlobalPlanner K) : GlobalPlanner K :=
  ⟨g.config, g.mapInitialized, g.voxelQuery, g.startGoal, Traj.empty,
    g.paChecker.clear, g.trajStamp⟩

def GlobalPlanner.withTraj (g : GlobalPlanner K) (tr : Traj K) :
    GlobalPlanner K :=
  ⟨g.config, g.mapInitialized, g.voxelQuery, g.startGoal, tr, g.paChecker,
    g.trajStamp⟩

def GlobalPlanner.withStamp (g : GlobalPlanner K) (s : K) : GlobalPlanner K :=
  ⟨g.config, g.mapInitialized, g.voxelQuery, g.startGoal, g.traj, g.paChecker, s⟩

/-- `GlobalPlanner::plan` (`global_planning.cpp` lines 152-242).  Control
flow of the source: runs only when exactly two goals are buffered; when
the route has more than one waypoint it first clears `traj` and
`paChecker` (lines 215-216), returns early if `gcopter.setup` fails
(lines 218-228), otherwise `gcopter.optimize` writes into `traj` and the
call returns early if the cost is infinite (lines 230-233); only then,
if the trajectory has pieces, is `trajStamp` recorded (lines 235-239). -/
def GlobalPlanner.plan (g : GlobalPlanner K) (o : PlanOracle K) (now : K) :
    GlobalPlanner K :=
  if g.startGoal.length = 2 then
    if 1 < o.route.length then
      if o.setupOk = false then g.clearForPlan
      else if o.optCostInf = true then g.clearForPlan.withTraj o.optTraj
      else if 0 < o.optTraj.pieceNum then
        ((g.clearForPlan.withTraj o.optTraj).withStamp now)
      else g.clearForPlan.withTraj o.optTraj
    else g
  else g

/-- The goal point `targetCallBack` builds (`global_planning.cpp`
lines 252-255): `zGoal = mapBound[4] + dilateRadius +
|ori.z| * (mapBound[5] - mapBound[4] - 2 * dilateRadius)`. -/
def goalPoint (cfg : Config K) (msg : TargetMsg K) : Vec3 K :=
  ⟨msg.posX, msg.posY,
    cfg.mapBound4 + cfg.dilateRadius +
      |msg.orientZ| * (cfg.mapBound5 - cfg.mapBound4 - 2 * cfg.dilateRadius)⟩

/-- `global_planning.cpp` lines 248-251: a buffer already holding two
points is cleared at the start of the callback. -/
def GlobalPlanner.goalBufferReset (g : GlobalPlanner K) : GlobalPlanner K :=
  if 2 ≤ g.startGoal.length then g.withGoals [] else g

/-- `global_planning.cpp` lines 256-264: the goal is appended only when
the occupancy query reports the point free. -/
def GlobalPlanner.bufferGoal (g : GlobalPlanner K) (p : Vec3 K) :
    GlobalPlanner K :=
  if g.voxelQuery p = false then g.withGoals (g.startGoal ++ [p]) else g

/-- `GlobalPlanner::targetCallBack` (`global_planning.cpp`
lines 244-269): ignore requests before the map arrives; reset a full
buffer; validate and buffer the computed goal point; then call `plan`. -/
def GlobalPlanner.targetCallBack (g : GlobalPlanner K) (msg : TargetMsg K)
    (o : PlanOracle K) (now : K) : GlobalPlanner K :=
  if g.mapInitialized then
    ((g.goalBufferReset.bufferGoal (goalPoint g.config msg)).plan o now)
  else g

/-- One tick of telemetry fed to `Pa_checker::check` by
`GlobalPlanner::process` (`global_planning.cpp` line 348). -/
structure Tick (K : Type) where
  quat : Vec4 K
  pos : Vec3 K
  speed : K
  delta : K

/-- Repeated calls to `check` against one fixed trajectory. -/
def runChecks [FloorRing K] (ops : AOps K) (traj : Traj K)
    (c : Pa_checker K) (ticks : List (Tick K)) : Pa_checker K :=
  ticks.foldl (fun a tk => a.check ops traj tk.quat tk.pos tk.speed tk.delta) c

/-- The real-number instantiation of the analytic primitives: the model
of the C++ `cos` / Eigen `norm`. -/
noncomputable def realOps : AOps ℝ :=
  ⟨Real.cos, Real.sqrt, Real.sqrt_zero, Real.sqrt_nonneg⟩

/-- A nonnegative stand-in for the square root on `ℚ`, used only to
instantiate concrete runs of the generic model in witnesses. -/
def qSqrt (x : ℚ) : ℚ := if x ≤ 0 then 0 else 1

/-- A rational instantiation of the analytic primitives for concrete
runs (`cos` is the constant `1/2`). -/
def qOps : AOps ℚ :=
  ⟨fun _ => 1 / 2, qSqrt, by simp [qSqrt],
    fun x => by
      simp only [qSqrt]
      split <;> norm_num⟩

/-- Stated from the spec's words for claim C3: the candidate point is
accepted when the cosine of the angle between the boresight and the
normalized offset strictly exceeds `cos` of the cone's half-angle, and
the projection of the offset onto the (unit) boresight is at most the
maximum verified-safe range. -/
def coneRangeAccept (ops : AOps K) (coneHalfAngle maxRange : K)
    (h d : Vec3 K) : Prop :=
  ops.cos coneHalfAngle < Vec3.dot h (Vec3.normalized ops d) ∧
  Vec3.dot h d ≤ maxRange

/-- A trajectory with one piece and zero total duration: against it the
scan loop visits no sample, so a `check` call reduces to the clamp. -/
def trajQ : Traj ℚ := ⟨1, 0, fun _ => ⟨0, 0, 0⟩⟩

/-- A straight-line unit-duration trajectory along the x axis. -/
def trajLine : Traj ℚ := ⟨1, 1, fun t => ⟨t, 0, 0⟩⟩

/-- The identity quaternion `(w,x,y,z) = (1,0,0,0)`: boresight along x. -/
def quatId : Vec4 ℚ := ⟨1, 0, 0, 0⟩

/-- A quaternion whose rotation sends the x axis into the y-z plane:
`quatRotate quatYaw unitX = (0, 1/2, -1/2)`, orthogonal to the x axis. -/
def quatYaw : Vec4 ℚ := ⟨1 / 2, 0, 1 / 2, 1 / 2⟩

/-- A checker armed at progress 0 (full cone angle 40, `a_max` 4,
`max_dist` 4 as in `global_planning.cpp` line 107), `safe` seeded true. -/
def cC5 : Pa_checker ℚ := ⟨0, 4, 4, true, 40⟩

def cfgQ : Config ℚ := ⟨1, 0, 10⟩

/-- A planner state with two buffered goals, an installed one-piece
trajectory, a monitor mid-flight (`progress_t = 5`, `safe = true`) and
a recorded stamp, over a map with no occupied cells. -/
def gC1 : GlobalPlanner ℚ :=
  ⟨cfgQ, true, fun _ => false, [⟨0, 0, 0⟩, ⟨1, 0, 0⟩], trajQ,
    ⟨5, 4, 4, true, 40⟩, 7⟩

/-- An oracle whose route has two waypoints but whose setup step fails. -/
def oFail : PlanOracle ℚ := ⟨[⟨0, 0, 0⟩, ⟨1, 0, 0⟩], false, false, Traj.empty⟩

/-- A planner state with two buffered goals over a map that reports
every point occupied. -/
def gC4 : GlobalPlanner ℚ :=
  ⟨cfgQ, true, fun _ => true, [⟨0, 0, 0⟩, ⟨1, 0, 0⟩], trajQ,
    ⟨0, 4, 4, false, 40⟩, 0⟩

def msgQ : TargetMsg ℚ := ⟨2, 3, 0⟩

/-- An oracle for a run that never reaches the pipeline. -/
def oIdle : PlanOracle ℚ := ⟨[], false, false, Traj.empty⟩

def tick1 : Tick ℚ := ⟨⟨1, 0, 0, 0⟩, ⟨0, 0, 0⟩, 1, 0⟩

def tick2 : Tick ℚ := ⟨⟨1, 0, 0, 0⟩, ⟨0, 0, 0⟩, 1, 1⟩

variable [FloorRing K]

lemma stepSize_pos : (0 : K) < stepSize := by norm_num [stepSize]

/-- Every visited sample time is at least the loop's start value. -/
lemma mem_sampleTimes_lower {start dur t : K}
    (ht : t ∈ sampleTimes start dur) : start ≤ t := by
  rcases List.mem_map.mp ht with ⟨k, _, rfl⟩
  have : (0 : K) ≤ stepSize * (k : K) :=
    mul_nonneg stepSize_pos.le (Nat.cast_nonneg k)
  linarith

/-- Every visited sample time satisfies the loop guard `t ≤ dur`. -/
lemma mem_sampleTimes_upper {start dur t : K}
    (ht : t ∈ sampleTimes start dur) : t ≤ dur := by
  rcases List.mem_map.mp ht with ⟨k, hk, rfl⟩
  have hk' : k < numSteps start dur := List.mem_range.mp hk
  by_cases hsd : start ≤ dur
  · have hkf : k ≤ Nat.floor ((dur - start) / (stepSize : K)) := by
      have : numSteps start dur = Nat.floor ((dur - start) / (stepSize : K)) + 1 := by
        simp [numSteps, hsd]
      omega
    have hq : (0 : K) ≤ (dur - start) / stepSize :=
      div_nonneg (sub_nonneg.mpr hsd) stepSize_pos.le
    have h1 : (k : K) ≤ (dur - start) / stepSize :=
      le_trans (Nat.cast_le.mpr hkf) (Nat.floor_le hq)
    have h2 : (k : K) * stepSize ≤ dur - start := by
      rw [← le_div_iff stepSize_pos]
      exact h1
    nlinarith [h2]
  · exfalso
    have : numSteps start dur = 0 := by simp [numSteps, hsd]
    omega

lemma checkLoop_nil (ops : AOps K) (traj : Traj K) (pos h : Vec3 K)
    (speed : K) (c : Pa_checker K) :
    Pa_checker.checkLoop ops traj pos h speed c [] = c := rfl

lemma checkLoop_cons_pos (ops : AOps K) (traj : Traj K) (pos h : Vec3 K)
    (speed : K) (c : Pa_checker K) (t : K) (ts : List K)
    (hOK : sampleOK ops c traj pos h t) :
    Pa_checker.checkLoop ops traj pos h speed c (t :: ts) =
      Pa_checker.checkLoop ops traj pos h speed (c.withProgress t) ts := by
  simp only [Pa_checker.checkLoop]
  rw [if_pos hOK]

lemma checkLoop_cons_neg (ops : AOps K) (traj : Traj K) (pos h : Vec3 K)
    (speed : K) (c : Pa_checker K) (t : K) (ts : List K)
    (hOK : ¬ sampleOK ops c traj pos h t) :
    Pa_checker.checkLoop ops traj pos h speed c (t :: ts) =
      c.withSafe (stopDecision ops traj pos speed c.a_max c.progress_t) := by
  simp only [Pa_checker.checkLoop]
  rw [if_neg hOK]

/-- After the scan loop, `progress_t` is either untouched or one of the
visited sample times. -/
lemma checkLoop_progress_cases (ops : AOps K) (traj : Traj K)
    (pos h : Vec3 K) (speed : K) (ts : List K) :
    ∀ c : Pa_checker K,
      (Pa_checker.checkLoop ops traj pos h speed c ts).progress_t = c.progress_t ∨
      (Pa_checker.checkLoop ops traj pos h speed c ts).progress_t ∈ ts := by
  induction ts with
  | nil => exact fun c => Or.inl rfl
  | cons t ts ih =>
    intro c
    by_cases hOK : sampleOK ops c traj pos h t
    · rw [checkLoop_cons_pos ops traj pos h speed c t ts hOK]
      rcases ih (c.withProgress t) with h1 | h1
      · rw [h1]
        exact Or.inr (List.mem_cons_self t ts)
      · exact Or.inr (List.mem_cons_of_mem t h1)
    · rw [checkLoop_cons_neg ops traj pos h speed c t ts hOK]
      exact Or.inl rfl

/-- The scan loop never changes the configuration fields. -/
lemma checkLoop_params (ops : AOps K) (traj : Traj K) (pos h : Vec3 K)
    (speed : K) (ts : List K) :
    ∀ c : Pa_checker K,
      (Pa_checker.checkLoop ops traj pos h speed c ts).a_max = c.a_max ∧
      (Pa_checker.checkLoop ops traj pos h speed c ts).max_dist = c.max_dist ∧
      (Pa_checker.checkLoop ops traj pos h speed c ts).angle = c.angle := by
  induction ts with
  | nil => exact fun c => ⟨rfl, rfl, rfl⟩
  | cons t ts ih =>
    intro c
    by_cases hOK : sampleOK ops c traj pos h t
    · rw [checkLoop_cons_pos ops traj pos h speed c t ts hOK]
      exact ih (c.withProgress t)
    · rw [checkLoop_cons_neg ops traj pos h speed c t ts hOK]
      exact ⟨rfl, rfl, rfl⟩

/-- After the scan loop, the `safe` flag is either untouched or the
stopping-distance decision taken at the final `progress_t`. -/
lemma checkLoop_safe_cases (ops : AOps K) (traj : Traj K) (pos h : Vec3 K)
    (speed : K) (ts : List K) :
    ∀ c : Pa_checker K,
      (Pa_checker.checkLoop ops traj pos h speed c ts).safe = c.safe ∨
      (Pa_checker.checkLoop ops traj pos h speed c ts).safe =
        stopDecision ops traj pos speed c.a_max
          (Pa_checker.checkLoop ops traj pos h speed c ts).progress_t := by
  induction ts with
  | nil => exact fun c => Or.inl rfl
  | cons t ts ih =>
    intro c
    by_cases hOK : sampleOK ops c traj pos h t
    · rw [checkLoop_cons_pos ops traj pos h speed c t ts hOK]
      rcases ih (c.withProgress t) with h1 | h1
      · exact Or.inl h1
      · exact Or.inr h1
    · rw [checkLoop_cons_neg ops traj pos h speed c t ts hOK]
      exact Or.inr rfl

lemma clamp_progress_ge_delta (c : Pa_checker K) (delta : K) :
    delta ≤ (c.clamp delta).progress_t := by
  unfold Pa_checker.clamp
  split
  · exact le_rfl
  · next hle => exact (not_le.mp hle).le

lemma clamp_progress_ge_self (c : Pa_checker K) (delta : K) :
    c.progress_t ≤ (c.clamp delta).progress_t := by
  unfold Pa_checker.clamp
  split
  · next hle => exact hle
  · exact le_rfl

lemma clamp_progress_le (c : Pa_checker K) {delta d : K}
    (h1 : c.progress_t ≤ d) (h2 : delta ≤ d) :
    (c.clamp delta).progress_t ≤ d := by
  unfold Pa_checker.clamp
  split
  · exact h2
  · exact h1

lemma clamp_a_max (c : Pa_checker K) (delta : K) :
    (c.clamp delta).a_max = c.a_max := by
  unfold Pa_checker.clamp
  split <;> rfl

lemma clamp_safe (c : Pa_checker K) (delta : K) :
    (c.clamp delta).safe = c.safe := by
  unfold Pa_checker.clamp
  split <;> rfl

/-- One call to `check` never decreases `progress_t`. -/
lemma check_progress_mono (ops : AOps K) (traj : Traj K) (quat : Vec4 K)
    (pos : Vec3 K) (speed delta : K) (c : Pa_checker K) :
    c.progress_t ≤ (c.check ops traj quat pos speed delta).progress_t := by
  unfold Pa_checker.check
  rcases checkLoop_progress_cases ops traj pos (boresight ops quat) speed
      (sampleTimes ((c.clamp delta).progress_t + 1 / 100) traj.dur)
      (c.clamp delta) with h1 | h1
  · rw [h1]
    exact clamp_progress_ge_self c delta
  · have h2 := mem_sampleTimes_lower h1
    have h3 := clamp_progress_ge_self c delta
    linarith

/-- One call to `check` leaves `progress_t` at least `delta`. -/
lemma check_progress_ge_delta (ops : AOps K) (traj : Traj K) (quat : Vec4 K)
    (pos : Vec3 K) (speed delta : K) (c : Pa_checker K) :
    delta ≤ (c.check ops traj quat pos speed delta).progress_t := by
  unfold Pa_checker.check
  rcases checkLoop_progress_cases ops traj pos (boresight ops quat) speed
      (sampleTimes ((c.clamp delta).progress_t + 1 / 100) traj.dur)
      (c.clamp delta) with h1 | h1
  · rw [h1]
    exact clamp_progress_ge_delta c delta
  · have h2 := mem_sampleTimes_lower h1
    have h3 := clamp_progress_ge_delta c delta
    linarith

/-- One call to `check` keeps `progress_t` within the trajectory's
duration, provided it started there and `delta` is in range. -/
lemma check_progress_le_dur (ops : AOps K) (traj : Traj K) (quat : Vec4 K)
    (pos : Vec3 K) (speed delta : K) (c : Pa_checker K)
    (h1 : c.progress_t ≤ traj.dur) (h2 : delta ≤ traj.dur) :
    (c.check ops traj quat pos speed delta).progress_t ≤ traj.dur := by
  unfold Pa_checker.check
  rcases checkLoop_progress_cases ops traj pos (boresight ops quat) speed
      (sampleTimes ((c.clamp delta).progress_t + 1 / 100) traj.dur)
      (c.clamp delta) with hc | hc
  · rw [hc]
    exact clamp_progress_le c h1 h2
  · exact mem_sampleTimes_upper hc

/-- After `check`, the `safe` flag is either untouched or the
stopping-distance decision taken at the final `progress_t`. -/
lemma check_safe_cases (ops : AOps K) (traj : Traj K) (quat : Vec4 K)
    (pos : Vec3 K) (speed delta : K) (c : Pa_checker K) :
    (c.check ops traj quat pos speed delta).safe = c.safe ∨
    (c.check ops traj quat pos speed delta).safe =
      stopDecision ops traj pos speed c.a_max
        ((c.check ops traj quat pos speed delta).progress_t) := by
  unfold Pa_checker.check
  rcases checkLoop_safe_cases ops traj pos (boresight ops quat) speed
      (sampleTimes ((c.clamp delta).progress_t + 1 / 100) traj.dur)
      (c.clamp delta) with h1 | h1
  · exact Or.inl (h1.trans (clamp_safe c delta))
  · rw [clamp_a_max c delta] at h1
    exact Or.inr h1

/-- The configuration fields survive a `check` call unchanged. -/
lemma check_params (ops : AOps K) (traj : Traj K) (quat : Vec4 K)
    (pos : Vec3 K) (speed delta : K) (c : Pa_checker K) :
    (c.check ops traj quat pos speed delta).a_max = c.a_max ∧
    (c.check ops traj quat pos speed delta).max_dist = c.max_dist ∧
    (c.check ops traj quat pos speed delta).angle = c.angle := by
  unfold Pa_checker.check
  have h1 := checkLoop_params ops traj pos (boresight ops quat) speed
    (sampleTimes ((c.clamp delta).progress_t + 1 / 100) traj.dur)
    (c.clamp delta)
  have h2 : (c.clamp delta).a_max = c.a_max ∧
      (c.clamp delta).max_dist = c.max_dist ∧
      (c.clamp delta).angle = c.angle := by
    unfold Pa_checker.clamp
    split <;> exact ⟨rfl, rfl, rfl⟩
  exact ⟨h1.1.trans h2.1, h1.2.1.trans h2.2.1, h1.2.2.trans h2.2.2⟩

lemma Vec3.dot_smul_right (a : K) (u v : Vec3 K) :
    Vec3.dot u (Vec3.smul a v) = a * Vec3.dot u v := by
  simp only [Vec3.dot, Vec3.smul]
  ring

lemma Vec3.norm_nonneg (ops : AOps K) (v : Vec3 K) : 0 ≤ Vec3.norm ops v :=
  ops.sqrt_nonneg _

lemma Vec3.norm_sub_self (ops : AOps K) (v : Vec3 K) :
    Vec3.norm ops (Vec3.sub v v) = 0 := by
  simp only [Vec3.norm, Vec3.sub, Vec3.dot, sub_self, mul_zero, add_zero, zero_add]
  exact ops.sqrt_zero

/-- When the loop has at least one iteration, its first sample time is
exactly the start value `progress_t + 0.01`. -/
lemma sampleTimes_cons {start dur : K} (h : start ≤ dur) :
    ∃ ts : List K, sampleTimes start dur = start :: ts := by
  refine ⟨(List.range (Nat.floor ((dur - start) / (stepSize : K)))).map
    (fun k : ℕ => (start + stepSize * ((k : K) + 1))), ?_⟩
  rw [sampleTimes, numSteps, if_pos h, List.range_succ_eq_map, List.map_cons,
    List.map_map]
  congr 1
  · norm_num
  · apply List.map_congr_left
    intro k _
    simp only [Function.comp_apply, Nat.succ_eq_add_one]
    push_cast
    ring

/-- C3: a scanned sample at time `t` is accepted — and `progress_t`
advanced to `t` — exactly when the cone test (strict, so a point whose
direction cosine equals `cos(angle/2)` is rejected) and the range test
(non-strict, so a point whose boresight projection equals `max_dist` is
accepted) both hold; on a rejected sample `progress_t` does not
advance. -/
theorem claim_C3_cone_range_test (ops : AOps K) (c : Pa_checker K)
    (traj : Traj K) (pos h : Vec3 K) (speed t : K) (ts : List K) :
    (sampleOK ops c traj pos h t ↔
      coneRangeAccept ops (c.angle / 2) c.max_dist h (Vec3.sub (traj.posAt t) pos)) ∧
    (sampleOK ops c traj pos h t →
      Pa_checker.checkLoop ops traj pos h speed c (t :: ts) =
        Pa_checker.checkLoop ops traj pos h speed (c.withProgress t) ts) ∧
    (¬ sampleOK ops c traj pos h t →
      (Pa_checker.checkLoop ops traj pos h speed c (t :: ts)).progress_t =
        c.progress_t) ∧
    (Vec3.dot h (Vec3.normalized ops (Vec3.sub (traj.posAt t) pos)) =
        ops.cos (c.angle / 2) →
      ¬ sampleOK ops c traj pos h t) ∧
    (ops.cos (c.angle / 2) <
        Vec3.dot h (Vec3.normalized ops (Vec3.sub (traj.posAt t) pos)) →
      Vec3.dot h (Vec3.sub (traj.posAt t) pos) = c.max_dist →
      sampleOK ops c traj pos h t) := by
  refine ⟨Iff.rfl, fun hOK => checkLoop_cons_pos ops traj pos h speed c t ts hOK,
    fun hOK => ?_, fun heq hOK => ?_, fun h1 h2 => ⟨h1, h2.le⟩⟩
  · rw [checkLoop_cons_neg ops traj pos h speed c t ts hOK]
    rfl
  · have h1 := hOK.1
    rw [heq] at h1
    exact lt_irrefl _ h1

lemma clamp_angle (c : Pa_checker K) (delta : K) :
    (c.clamp delta).angle = c.angle := by
  unfold Pa_checker.clamp
  split <;> rfl

lemma clamp_max_dist (c : Pa_checker K) (delta : K) :
    (c.clamp delta).max_dist = c.max_dist := by
  unfold Pa_checker.clamp
  split <;> rfl

/-- The branch condition only reads the two loop-invariant configuration
fields of the checker. -/
lemma sampleOK_congr (ops : AOps K) (traj : Traj K) (pos h : Vec3 K)
    (t : K) (c c' : Pa_checker K) (ha : c'.angle = c.angle)
    (hm : c'.max_dist = c.max_dist) :
    sampleOK ops c' traj pos h t ↔ sampleOK ops c traj pos h t := by
  unfold sampleOK
  rw [ha, hm]

/-- A scan all of whose samples pass never touches `safe`. -/
lemma checkLoop_safe_all_pass (ops : AOps K) (traj : Traj K)
    (pos h : Vec3 K) (speed : K) :
    ∀ (ts : List K) (c : Pa_checker K),
      (∀ t ∈ ts, sampleOK ops c traj pos h t) →
      (Pa_checker.checkLoop ops traj pos h speed c ts).safe = c.safe := by
  intro ts
  induction ts with
  | nil => exact fun c _ => rfl
  | cons t ts ih =>
    intro c hall
    have hOK : sampleOK ops c traj pos h t := hall t (List.mem_cons_self t ts)
    rw [checkLoop_cons_pos ops traj pos h speed c t ts hOK]
    exact ih (c.withProgress t) (fun u hu => hall u (List.mem_cons_of_mem t hu))

/-- A scan whose sample list contains a failing sample stops at the
first such sample and rewrites `safe` with the stopping-distance
decision at the final `progress_t`. -/
lemma checkLoop_safe_fail (ops : AOps K) (traj : Traj K)
    (pos h : Vec3 K) (speed : K) :
    ∀ (ts : List K) (c : Pa_checker K),
      (∃ t ∈ ts, ¬ sampleOK ops c traj pos h t) →
      (Pa_checker.checkLoop ops traj pos h speed c ts).safe =
        stopDecision ops traj pos speed c.a_max
          (Pa_checker.checkLoop ops traj pos h speed c ts).progress_t := by
  intro ts
  induction ts with
  | nil =>
    rintro c ⟨t, ht, _⟩
    exact absurd ht (List.not_mem_nil t)
  | cons t ts ih =>
    rintro c ⟨u, hu, hfail⟩
    by_cases hOK : sampleOK ops c traj pos h t
    · rw [checkLoop_cons_pos ops traj pos h speed c t ts hOK]
      have hu' : u ∈ ts := by
        rcases List.mem_cons.mp hu with rfl | hmem
        · exact absurd hOK hfail
        · exact hmem
      exact ih (c.withProgress t) ⟨u, hu', hfail⟩
    · rw [checkLoop_cons_neg ops traj pos h speed c t ts hOK]
      rfl

/-- C2 (amended): `safe` is overwritten only on calls whose scan stops
at a failing sample.  When every sample the scan visits passes the
cone/range test — including the case where it walks all the way to
`T_total` — or when no sample is scanned at all, `safe` retains its
previous value; when some visited sample fails, `safe` is rewritten
with the stopping-distance decision taken at the final `progress_t`. -/
theorem claim_C2_safe_update (ops : AOps K) (c : Pa_checker K)
    (traj : Traj K) (quat : Vec4 K) (pos : Vec3 K) (speed delta : K) :
    ((∀ t ∈ sampleTimes ((c.clamp delta).progress_t + 1 / 100) traj.dur,
        sampleOK ops c traj pos (boresight ops quat) t) →
      (c.check ops traj quat pos speed delta).safe = c.safe) ∧
    ((∃ t ∈ sampleTimes ((c.clamp delta).progress_t + 1 / 100) traj.dur,
        ¬ sampleOK ops c traj pos (boresight ops quat) t) →
      (c.check ops traj quat pos speed delta).safe =
        stopDecision ops traj pos speed c.a_max
          ((c.check ops traj quat pos speed delta).progress_t)) := by
  constructor
  · intro hall
    unfold Pa_checker.check
    have h1 := checkLoop_safe_all_pass ops traj pos (boresight ops quat) speed
      (sampleTimes ((c.clamp delta).progress_t + 1 / 100) traj.dur)
      (c.clamp delta)
      (fun t ht => (sampleOK_congr ops traj pos (boresight ops quat) t c
        (c.clamp delta) (clamp_angle c delta) (clamp_max_dist c delta)).mpr
        (hall t ht))
    exact h1.trans (clamp_safe c delta)
  · rintro ⟨t, ht, hfail⟩
    unfold Pa_checker.check
    have h2 := checkLoop_safe_fail ops traj pos (boresight ops quat) speed
      (sampleTimes ((c.clamp delta).progress_t + 1 / 100) traj.dur)
      (c.clamp delta)
      ⟨t, ht, fun hOK => hfail ((sampleOK_congr ops traj pos
        (boresight ops quat) t c (c.clamp delta) (clamp_angle c delta)
        (clamp_max_dist c delta)).mp hOK)⟩
    rw [clamp_a_max c delta] at h2
    exact h2

/-- C5: a failing sample is a hard stop of the scan — the loop returns
at once with `progress_t` unchanged and `safe` set to the
stopping-distance decision — and in the 90°-off-boresight scenario
(the boresight orthogonal to the offset of the first sample, the cone
half-angle at most a quarter turn, the vehicle on the trajectory) the
first sample past the clamped `progress_t` fails, `progress_t` stays at
`delta`, and `safe` becomes `false` for any positive speed. -/
theorem claim_C5_hard_stop (ops : AOps K) (c : Pa_checker K) (traj : Traj K)
    (quat : Vec4 K) (pos : Vec3 K) (speed delta : K)
    (hprog : c.progress_t ≤ delta)
    (hdur : delta + 1 / 100 ≤ traj.dur)
    (hperp : Vec3.dot (boresight ops quat)
      (Vec3.sub (traj.posAt (delta + 1 / 100)) pos) = 0)
    (hcos : 0 ≤ ops.cos (c.angle / 2))
    (hpos : traj.posAt delta = pos)
    (hspeed : 0 < speed) :
    (∀ (c' : Pa_checker K) (h' : Vec3 K) (t : K) (ts : List K),
      ¬ sampleOK ops c' traj pos h' t →
      Pa_checker.checkLoop ops traj pos h' speed c' (t :: ts) =
        c'.withSafe (stopDecision ops traj pos speed c'.a_max c'.progress_t)) ∧
    (c.check ops traj quat pos speed delta).progress_t = delta ∧
    (c.check ops traj quat pos speed delta).safe = false := by
  have hclamp : c.clamp delta = c.withProgress delta := by
    unfold Pa_checker.clamp
    rw [if_pos hprog]
  have hfail : ¬ sampleOK ops (c.withProgress delta) traj pos
      (boresight ops quat) (delta + 1 / 100) := by
    intro hOK
    have hd : Vec3.dot (boresight ops quat)
        (Vec3.normalized ops (Vec3.sub (traj.posAt (delta + 1 / 100)) pos)) = 0 := by
      rw [Vec3.normalized, Vec3.dot_smul_right, hperp, mul_zero]
    have h1 := hOK.1
    rw [hd] at h1
    exact absurd h1 (not_lt.mpr hcos)
  have hs : Vec3.norm ops (Vec3.sub (traj.posAt delta) pos) = 0 := by
    rw [hpos]
    exact Vec3.norm_sub_self ops pos
  obtain ⟨ts, hts⟩ := sampleTimes_cons hdur
  have hres : c.check ops traj quat pos speed delta =
      (c.withProgress delta).withSafe
        (stopDecision ops traj pos speed c.a_max delta) := by
    unfold Pa_checker.check
    rw [hclamp]
    show Pa_checker.checkLoop ops traj pos (boresight ops quat) speed
        (c.withProgress delta) (sampleTimes (delta + 1 / 100) traj.dur) = _
    rw [hts, checkLoop_cons_neg ops traj pos (boresight ops quat) speed
      (c.withProgress delta) (delta + 1 / 100) ts hfail]
    rfl
  refine ⟨fun c' h' t ts' hOK =>
    checkLoop_cons_neg ops traj pos h' speed c' t ts' hOK, ?_, ?_⟩
  · rw [hres]
    rfl
  · rw [hres]
    show stopDecision ops traj pos speed c.a_max delta = false
    unfold stopDecision
    rw [hs]
    rw [if_pos (by nlinarith)]

/-- C6 (amended): when `check` does overwrite `safe`, the stored value
follows the constant-deceleration model `speed² − 2·a_max·s ≤ 0` with
`s` the distance to the trajectory point at the final `progress_t`; in
particular a call that overwrites `safe` stores `true` when `speed = 0`
(for a nonnegative deceleration bound) and `false` when `s = 0` and
`speed > 0`.  A call that never hits a failing sample leaves `safe`
unchanged instead. -/
theorem claim_C6_stopping_model (ops : AOps K) (c : Pa_checker K)
    (traj : Traj K) (quat : Vec4 K) (pos : Vec3 K) (speed delta : K) :
    ((c.check ops traj quat pos speed delta).safe = c.safe ∨
      ((c.check ops traj quat pos speed delta).safe = true ↔
        speed * speed - 2 * c.a_max *
          Vec3.norm ops (Vec3.sub
            (traj.posAt ((c.check ops traj quat pos speed delta).progress_t)) pos) ≤ 0)) ∧
    (speed = 0 → 0 ≤ c.a_max →
      ((c.check ops traj quat pos speed delta).safe = c.safe ∨
        (c.check ops traj quat pos speed delta).safe = true)) ∧
    (Vec3.norm ops (Vec3.sub
        (traj.posAt ((c.check ops traj quat pos speed delta).progress_t)) pos) = 0 →
      0 < speed →
      ((c.check ops traj quat pos speed delta).safe = c.safe ∨
        (c.check ops traj quat pos speed delta).safe = false)) := by
  rcases check_safe_cases ops traj quat pos speed delta c with hc | hc
  · exact ⟨Or.inl hc, fun _ _ => Or.inl hc, fun _ _ => Or.inl hc⟩
  · refine ⟨Or.inr ?_, fun hsp ha => Or.inr ?_, fun hs hsp => Or.inr ?_⟩
    · rw [hc]
      unfold stopDecision
      split
    
      · next hgt =>
        exact ⟨fun hf => by simp at hf, fun hle => by linarith⟩
      · next hgt =>
        simpa using not_lt.mp hgt
    · subst hsp
      rw [hc]
      unfold stopDecision
      have hnn := Vec3.norm_nonneg ops (Vec3.sub
        (traj.posAt ((c.check ops traj quat pos 0 delta).progress_t)) pos)
      rw [if_neg (not_lt.mpr (by nlinarith))]
    · rw [hc]
      unfold stopDecision
      rw [hs]
      rw [if_pos (by nlinarith)]

/-- C7: over a sequence of `check` calls against one fixed trajectory
with non-decreasing elapsed times, `progress_t` never decreases from
one call to the next. -/
theorem claim_C7_monotone_progress (ops : AOps K) (traj : Traj K)
    (c : Pa_checker K) (pre : List (Tick K)) (tk : Tick K)
    (hmono : List.Pairwise (fun a b : Tick K => a.delta ≤ b.delta) (pre ++ [tk])) :
    (runChecks ops traj c pre).progress_t ≤
      (runChecks ops traj c (pre ++ [tk])).progress_t := by
  unfold runChecks
  rw [List.foldl_append]
  exact check_progress_mono ops traj tk.quat tk.pos tk.speed tk.delta _

/-- C8: when the elapsed time has moved past `progress_t`, the call
clamps `progress_t` up, so afterwards `progress_t ≥ delta`. -/
theorem claim_C8_clamp_progress (ops : AOps K) (traj : Traj K)
    (quat : Vec4 K) (pos : Vec3 K) (speed delta : K) (c : Pa_checker K)
    (hlt : c.progress_t < delta) :
    delta ≤ (c.check ops traj quat pos speed delta).progress_t :=
  check_progress_ge_delta ops traj quat pos speed delta c

/-- C9: `clear()` resets `progress_t` to `0` and `safe` to `false` and
leaves the configuration parameters untouched. -/
theorem claim_C9_clear_resets (c : Pa_checker K) :
    (Pa_checker.clear c).progress_t = 0 ∧
    (Pa_checker.clear c).safe = false ∧
    (Pa_checker.clear c).angle = c.angle ∧
    (Pa_checker.clear c).max_dist = c.max_dist ∧
    (Pa_checker.clear c).a_max = c.a_max :=
  ⟨rfl, rfl, rfl, rfl, rfl⟩

/-- C10: with `0 ≤ delta ≤ T_total` and `progress_t ≤ T_total`
beforehand, a `check` call leaves `progress_t` in `[delta, T_total]`,
and it never decreases `progress_t` even when `delta` is below the
current marker. -/
theorem claim_C10_progress_bounds (ops : AOps K) (traj : Traj K)
    (quat : Vec4 K) (pos : Vec3 K) (speed delta : K) (c : Pa_checker K)
    (h0 : 0 ≤ delta) (h1 : delta ≤ traj.dur) (h2 : c.progress_t ≤ traj.dur) :
    delta ≤ (c.check ops traj quat pos speed delta).progress_t ∧
    (c.check ops traj quat pos speed delta).progress_t ≤ traj.dur ∧
    c.progress_t ≤ (c.check ops traj quat pos speed delta).progress_t :=
  ⟨check_progress_ge_delta ops traj quat pos speed delta c,
    check_progress_le_dur ops traj quat pos speed delta c h2 h1,
    check_progress_mono ops traj quat pos speed delta c⟩

/-- C1 (amended): when the pipeline reaches the optimizer stage (two
goals buffered, route with more than one waypoint) and then fails —
setup fails or the optimization cost is infinite — the recorded start
time is indeed not updated, but the previously active trajectory does
not remain installed and the monitor's progress state is not preserved:
both were cleared just before the setup attempt, leaving
`progress_t = 0` and `safe = false` (and, on setup failure, an empty
trajectory). -/
theorem claim_C1_plan_failure (g : GlobalPlanner K) (o : PlanOracle K)
    (now : K)
    (hlen : g.startGoal.length = 2)
    (hroute : 1 < o.route.length)
    (hfail : o.setupOk = false ∨ o.optCostInf = true) :
    (g.plan o now).trajStamp = g.trajStamp ∧
    (g.plan o now).paChecker.progress_t = 0 ∧
    (g.plan o now).paChecker.safe = false ∧
    (o.setupOk = false → (g.plan o now).traj = Traj.empty) := by
  unfold GlobalPlanner.plan
  rw [if_pos hlen, if_pos hroute]
  by_cases hs : o.setupOk = false
  · rw [if_pos hs]
    exact ⟨rfl, rfl, rfl, fun _ => rfl⟩
  · rw [if_neg hs]
    have hc : o.optCostInf = true := by
      rcases hfail with h | h
      · exact absurd h hs
      · exact h
    rw [if_pos hc]
    exact ⟨rfl, rfl, rfl, fun hfalse => absurd hfalse hs⟩

/-- C4 (amended): a goal request whose computed point the map reports
occupied is rejected before buffering — nothing is appended and the
planner pipeline does not run — but the state is not always unchanged:
the callback first clears the buffer when it already holds two (or
more) points, so the buffer size can drop to zero; with zero or one
buffered points the whole state is unchanged.  The trajectory, the
monitor and the stamp are untouched in every case. -/
theorem claim_C4_occupied_goal (g : GlobalPlanner K) (msg : TargetMsg K)
    (o : PlanOracle K) (now : K)
    (hmap : g.mapInitialized = true)
    (hocc : g.voxelQuery (goalPoint g.config msg) = true) :
    g.targetCallBack msg o now =
      (if 2 ≤ g.startGoal.length then g.withGoals [] else g) ∧
    (g.targetCallBack msg o now).traj = g.traj ∧
    (g.targetCallBack msg o now).paChecker = g.paChecker ∧
    (g.targetCallBack msg o now).trajStamp = g.trajStamp := by
  have hq : g.goalBufferReset.voxelQuery = g.voxelQuery := by
    unfold GlobalPlanner.goalBufferReset
    split <;> rfl
  have hb : g.goalBufferReset.bufferGoal (goalPoint g.config msg) =
      g.goalBufferReset := by
    unfold GlobalPlanner.bufferGoal
    rw [hq]
    rw [if_neg (by rw [hocc]; simp)]
  have hlen2 : ¬ g.goalBufferReset.startGoal.length = 2 := by
    unfold GlobalPlanner.goalBufferReset
    split
    · simp [GlobalPlanner.withGoals]
    · next hge => omega
  have hplan : g.goalBufferReset.plan o now = g.goalBufferReset := by
    unfold GlobalPlanner.plan
    rw [if_neg hlen2]
  have htc : g.targetCallBack msg o now = g.goalBufferReset := by
    unfold GlobalPlanner.targetCallBack
    rw [hmap, if_pos rfl, hb, hplan]
  refine ⟨?_, ?_, ?_, ?_⟩
  · rw [htc]
    rfl
  · rw [htc]
    unfold GlobalPlanner.goalBufferReset
    split <;> rfl
  · rw [htc]
    unfold GlobalPlanner.goalBufferReset
    split <;> rfl
  · rw [htc]
    unfold GlobalPlanner.goalBufferReset
    split <;> rfl

/-- When the scan's start value already exceeds the total duration, the
loop body never runs and `check` reduces to the clamp alone. -/
lemma check_eval_nil (ops : AOps K) (traj : Traj K) (quat : Vec4 K)
    (pos : Vec3 K) (speed delta : K) (c : Pa_checker K)
    (hnil : ¬ ((c.clamp delta).progress_t + 1 / 100 ≤ traj.dur)) :
    c.check ops traj quat pos speed delta = c.clamp delta := by
  unfold Pa_checker.check
  have hempty : sampleTimes ((c.clamp delta).progress_t + 1 / 100) traj.dur =
      ([] : List K) := by
    rw [sampleTimes, numSteps, if_neg hnil]
    rfl
  rw [hempty]
  rfl

/-- C1 counterexample: with a trajectory installed (one piece) and the
monitor at `progress_t = 5`, a failed plan (setup failure after a
two-waypoint route) leaves the monitor reset to `0` and the previous
trajectory gone — the claim's "previous trajectory remains installed,
monitor unchanged" is false on this input. -/
theorem claim_C1_cex :
    (gC1.plan oFail 9).paChecker.progress_t = 0 ∧
    gC1.paChecker.progress_t = 5 ∧
    (gC1.plan oFail 9).traj.pieceNum = 0 ∧
    gC1.traj.pieceNum = 1 := by
  have h : gC1.plan oFail 9 = gC1.clearForPlan := by
    unfold GlobalPlanner.plan
    rw [if_pos (by decide), if_pos (by decide), if_pos (by decide)]
  exact ⟨by rw [h]; rfl, rfl, by rw [h]; rfl, rfl⟩

/-- C1 witness: the amended statement applied at the concrete failing
plan of `gC1` and `oFail`. -/
theorem claim_C1_wit :
    gC1.startGoal.length = 2 ∧ 1 < oFail.route.length ∧
    ((gC1.plan oFail 9).trajStamp = gC1.trajStamp ∧
      (gC1.plan oFail 9).paChecker.progress_t = 0 ∧
      (gC1.plan oFail 9).paChecker.safe = false ∧
      (oFail.setupOk = false → (gC1.plan oFail 9).traj = Traj.empty)) :=
  ⟨by decide, by decide,
    claim_C1_plan_failure gC1 oFail 9 (by decide) (by decide) (Or.inl rfl)⟩

/-- C2 counterexample: a call on a zero-duration trajectory scans no
sample, so `safe` keeps its seeded value `true` although the
stopping-distance expression at the final `progress_t` is positive
(the claim would require `safe` to be overwritten to `false`). -/
theorem claim_C2_cex :
    ((Pa_checker.init (0 : ℚ) 40 4 4 true).check qOps trajQ quatId
      ⟨0, 0, 0⟩ 1 0).safe = true ∧
    (1 : ℚ) * 1 - 2 * 4 * Vec3.norm qOps (Vec3.sub (trajQ.posAt
      (((Pa_checker.init (0 : ℚ) 40 4 4 true).check qOps trajQ quatId
        ⟨0, 0, 0⟩ 1 0).progress_t)) ⟨0, 0, 0⟩) > 0 := by
  have hclamp : (Pa_checker.init (0 : ℚ) 40 4 4 true).clamp 0 =
      Pa_checker.init (0 : ℚ) 40 4 4 true := by
    unfold Pa_checker.clamp Pa_checker.init Pa_checker.withProgress
    rw [if_pos le_rfl]
  have hnil : ¬ (((Pa_checker.init (0 : ℚ) 40 4 4 true).clamp 0).progress_t
      + 1 / 100 ≤ trajQ.dur) := by
    rw [hclamp]
    norm_num [Pa_checker.init, trajQ]
  have hch : (Pa_checker.init (0 : ℚ) 40 4 4 true).check qOps trajQ quatId
      ⟨0, 0, 0⟩ 1 0 = Pa_checker.init (0 : ℚ) 40 4 4 true :=
    (check_eval_nil qOps trajQ quatId ⟨0, 0, 0⟩ 1 0 _ hnil).trans hclamp
  refine ⟨by rw [hch]; rfl, ?_⟩
  rw [hch]
  have hn : Vec3.norm qOps (Vec3.sub (trajQ.posAt
      ((Pa_checker.init (0 : ℚ) 40 4 4 true).progress_t)) ⟨0, 0, 0⟩) = 0 :=
    Vec3.norm_sub_self qOps ⟨0, 0, 0⟩
  rw [hn]
  norm_num

/-- C4 counterexample: with two goals already buffered, an occupied goal
request clears the buffer — its size drops from 2 to 0, so "goal buffer
size unchanged" is false on this input. -/
theorem claim_C4_cex :
    (gC4.targetCallBack msgQ oIdle 0).startGoal.length = 0 ∧
    gC4.startGoal.length = 2 := by
  have h1 : gC4.goalBufferReset = gC4.withGoals [] := by
    unfold GlobalPlanner.goalBufferReset
    rw [if_pos (by decide)]
  have h2 : (gC4.withGoals []).bufferGoal (goalPoint gC4.config msgQ) =
      gC4.withGoals [] := by
    unfold GlobalPlanner.bufferGoal
    rw [if_neg (by decide)]
  have h3 : (gC4.withGoals []).plan oIdle 0 = gC4.withGoals [] := by
    unfold GlobalPlanner.plan
    rw [if_neg (by decide)]
  have h : gC4.targetCallBack msgQ oIdle 0 = gC4.withGoals [] := by
    unfold GlobalPlanner.targetCallBack
    rw [if_pos (by decide), h1, h2, h3]
  exact ⟨by rw [h]; rfl, rfl⟩

/-- C4 witness: the amended statement applied at the concrete occupied
request against `gC4`. -/
theorem claim_C4_wit :
    gC4.mapInitialized = true ∧
    gC4.voxelQuery (goalPoint gC4.config msgQ) = true ∧
    (gC4.targetCallBack msgQ oIdle 0 =
      (if 2 ≤ gC4.startGoal.length then gC4.withGoals [] else gC4) ∧
     (gC4.targetCallBack msgQ oIdle 0).traj = gC4.traj ∧
     (gC4.targetCallBack msgQ oIdle 0).paChecker = gC4.paChecker ∧
     (gC4.targetCallBack msgQ oIdle 0).trajStamp = gC4.trajStamp) :=
  ⟨rfl, rfl, claim_C4_occupied_goal gC4 msgQ oIdle 0 rfl rfl⟩

/-- C5 witness: the hard-stop scenario run at a concrete on-trajectory
state with the boresight rotated into the y-z plane. -/
theorem claim_C5_wit :
    (cC5.progress_t ≤ (0 : ℚ) ∧ (0 : ℚ) + 1 / 100 ≤ trajLine.dur ∧
      Vec3.dot (boresight qOps quatYaw)
        (Vec3.sub (trajLine.posAt ((0 : ℚ) + 1 / 100)) ⟨0, 0, 0⟩) = 0 ∧
      (0 : ℚ) ≤ qOps.cos (cC5.angle / 2) ∧
      trajLine.posAt (0 : ℚ) = ⟨0, 0, 0⟩ ∧ (0 : ℚ) < 1) ∧
    ((∀ (c' : Pa_checker ℚ) (h' : Vec3 ℚ) (t : ℚ) (ts : List ℚ),
        ¬ sampleOK qOps c' trajLine ⟨0, 0, 0⟩ h' t →
        Pa_checker.checkLoop qOps trajLine ⟨0, 0, 0⟩ h' 1 c' (t :: ts) =
          c'.withSafe (stopDecision qOps trajLine ⟨0, 0, 0⟩ 1 c'.a_max
            c'.progress_t)) ∧
      (cC5.check qOps trajLine quatYaw ⟨0, 0, 0⟩ 1 0).progress_t = 0 ∧
      (cC5.check qOps trajLine quatYaw ⟨0, 0, 0⟩ 1 0).safe = false) := by
  have h1 : cC5.progress_t ≤ (0 : ℚ) := le_rfl
  have h2 : (0 : ℚ) + 1 / 100 ≤ trajLine.dur := by norm_num [trajLine]
  have h3 : Vec3.dot (boresight qOps quatYaw)
      (Vec3.sub (trajLine.posAt ((0 : ℚ) + 1 / 100)) ⟨0, 0, 0⟩) = 0 := by
    norm_num [boresight, quatRotate, quatVec, unitX, Vec3.cross, Vec3.smul,
      Vec3.add, Vec3.normalized, Vec3.norm, Vec3.dot, Vec3.sub, qOps, qSqrt,
      quatYaw, trajLine]
  have h4 : (0 : ℚ) ≤ qOps.cos (cC5.angle / 2) := by norm_num [qOps]
  have h5 : trajLine.posAt (0 : ℚ) = ⟨0, 0, 0⟩ := rfl
  have h6 : (0 : ℚ) < 1 := by norm_num
  exact ⟨⟨h1, h2, h3, h4, h5, h6⟩,
    claim_C5_hard_stop qOps cC5 trajLine quatYaw ⟨0, 0, 0⟩ 1 0 h1 h2 h3 h4 h5 h6⟩

/-- C6 counterexample: a call with `speed = 0` whose scan visits no
sample leaves `safe = false`, although the claim demands `safe = true`
after any call with zero speed. -/
theorem claim_C6_cex :
    ((Pa_checker.init (0 : ℚ) 40 4 4 false).check qOps trajQ quatId
      ⟨0, 0, 0⟩ 0 0).safe = false := by
  have hclamp : (Pa_checker.init (0 : ℚ) 40 4 4 false).clamp 0 =
      Pa_checker.init (0 : ℚ) 40 4 4 false := by
    unfold Pa_checker.clamp Pa_checker.init Pa_checker.withProgress
    rw [if_pos le_rfl]
  have hnil : ¬ (((Pa_checker.init (0 : ℚ) 40 4 4 false).clamp 0).progress_t
      + 1 / 100 ≤ trajQ.dur) := by
    rw [hclamp]
    norm_num [Pa_checker.init, trajQ]
  have hch : (Pa_checker.init (0 : ℚ) 40 4 4 false).check qOps trajQ quatId
      ⟨0, 0, 0⟩ 0 0 = Pa_checker.init (0 : ℚ) 40 4 4 false :=
    (check_eval_nil qOps trajQ quatId ⟨0, 0, 0⟩ 0 0 _ hnil).trans hclamp
  rw [hch]
  rfl

/-- C7 witness: two ticks with non-decreasing elapsed times. -/
theorem claim_C7_wit :
    List.Pairwise (fun a b : Tick ℚ => a.delta ≤ b.delta) ([tick1] ++ [tick2]) ∧
    (runChecks qOps trajQ cC5 [tick1]).progress_t ≤
      (runChecks qOps trajQ cC5 ([tick1] ++ [tick2])).progress_t := by
  have hp : List.Pairwise (fun a b : Tick ℚ => a.delta ≤ b.delta)
      ([tick1] ++ [tick2]) := by
    norm_num [List.pairwise_cons, tick1, tick2]
  exact ⟨hp, claim_C7_monotone_progress qOps trajQ cC5 [tick1] tick2 hp⟩

/-- C8 witness: the clamp applied with the marker at 0 and elapsed 1. -/
theorem claim_C8_wit :
    (Pa_checker.init (0 : ℚ) 40 4 4 false).progress_t < 1 ∧
    1 ≤ ((Pa_checker.init (0 : ℚ) 40 4 4 false).check qOps trajQ quatId
      ⟨0, 0, 0⟩ 1 1).progress_t := by
  have h : (Pa_checker.init (0 : ℚ) 40 4 4 false).progress_t < 1 := by
    norm_num [Pa_checker.init]
  exact ⟨h, claim_C8_clamp_progress qOps trajQ quatId ⟨0, 0, 0⟩ 1 1 _ h⟩

/-- C10 witness: the bounds applied at a concrete in-range call. -/
theorem claim_C10_wit :
    ((0 : ℚ) ≤ 0 ∧ (0 : ℚ) ≤ trajQ.dur ∧
      (Pa_checker.init (0 : ℚ) 40 4 4 false).progress_t ≤ trajQ.dur) ∧
    ((0 : ℚ) ≤ ((Pa_checker.init (0 : ℚ) 40 4 4 false).check qOps trajQ
        quatId ⟨0, 0, 0⟩ 2 0).progress_t ∧
      ((Pa_checker.init (0 : ℚ) 40 4 4 false).check qOps trajQ quatId
        ⟨0, 0, 0⟩ 2 0).progress_t ≤ trajQ.dur ∧
      (Pa_checker.init (0 : ℚ) 40 4 4 false).progress_t ≤
        ((Pa_checker.init (0 : ℚ) 40 4 4 false).check qOps trajQ quatId
          ⟨0, 0, 0⟩ 2 0).progress_t) := by
  have h0 : (0 : ℚ) ≤ 0 := le_rfl
  have h1 : (0 : ℚ) ≤ trajQ.dur := by norm_num [trajQ]
  have h2 : (Pa_checker.init (0 : ℚ) 40 4 4 false).progress_t ≤ trajQ.dur := by
    norm_num [Pa_checker.init, trajQ]
  exact ⟨⟨h0, h1, h2⟩,
    claim_C10_progress_bounds qOps trajQ quatId ⟨0, 0, 0⟩ 2 0 _ h0 h1 h2⟩
